import Mathlib

/-
Shallow embedding of the Escrow contract (sc/src/Escrow.sol, Solidity 0.8.28,
using OpenZeppelin Ownable, ReentrancyGuard and SafeERC20) together with the
conforming-ERC20 token environment it runs against (OpenZeppelin ERC20, as
instantiated by sc/src/MockToken.sol).

Addresses are natural numbers, with 0 playing the role of address(0).
uint256 amounts are naturals: Solidity 0.8 checked arithmetic reverts on
overflow and ERC20 balance arithmetic cannot overflow for a conforming token
(balances are bounded by total supply), so Nat is a faithful abstraction.
A reverting call is an Except.error carrying the revert reason; revert
semantics mean the caller keeps the pre-call state, so an errored call
returns no state at all.
-/

abbrev Addr := Nat

inductive OperationStatus where
  | Active
  | Completed
  | Cancelled
deriving DecidableEq, Repr

/-- The Operation struct of Escrow.sol. -/
structure Operation where
  id : Nat
  creator : Addr
  tokenA : Addr
  tokenB : Addr
  amountA : Nat
  amountB : Nat
  status : OperationStatus
  completer : Addr
deriving DecidableEq, Repr

/-- The all-zero struct a Solidity mapping returns for an unset key
(enum value 0 is Active). -/
def Operation.zero : Operation :=
  { id := 0, creator := 0, tokenA := 0, tokenB := 0, amountA := 0,
    amountB := 0, status := OperationStatus.Active, completer := 0 }

/-- Balances and allowances of every ERC20 token in the environment:
`balances t h` is holder h's balance of token t; `allowances t o s` is the
allowance granted by owner o to spender s on token t. -/
structure TokenWorld where
  balances : Addr → Addr → Nat
  allowances : Addr → Addr → Addr → Nat

def setBal (b : Addr → Addr → Nat) (t h : Addr) (v : Nat) : Addr → Addr → Nat :=
  fun t2 h2 => if t2 = t ∧ h2 = h then v else b t2 h2

def setAllow (a : Addr → Addr → Addr → Nat) (t o s : Addr) (v : Nat) :
    Addr → Addr → Addr → Nat :=
  fun t2 o2 s2 => if t2 = t ∧ o2 = o ∧ s2 = s then v else a t2 o2 s2

/-- OpenZeppelin ERC20.transferFrom executed by `spender`: reverts (none)
unless the allowance granted by `src` to `spender` and the balance of `src`
both cover `amt`; on success the allowance is spent and the balance moves.
The two balance writes happen in sequence, as in ERC20 update, so the
src = dst case is handled exactly as the contract does. -/
def transferFrom (tw : TokenWorld) (t spender src dst : Addr) (amt : Nat) :
    Option TokenWorld :=
  if amt ≤ tw.allowances t src spender then
    if amt ≤ tw.balances t src then
      let al := setAllow tw.allowances t src spender (tw.allowances t src spender - amt)
      let b1 := setBal tw.balances t src (tw.balances t src - amt)
      let b2 := setBal b1 t dst (b1 t dst + amt)
      some { balances := b2, allowances := al }
    else none
  else none

/-- OpenZeppelin ERC20.transfer executed by `src`: reverts unless the
balance of `src` covers `amt`. -/
def transfer (tw : TokenWorld) (t src dst : Addr) (amt : Nat) : Option TokenWorld :=
  if amt ≤ tw.balances t src then
    let b1 := setBal tw.balances t src (tw.balances t src - amt)
    some { balances := setBal b1 t dst (b1 t dst + amt), allowances := tw.allowances }
  else none

/-- ERC20.approve executed by `o`: sets the allowance to `v`. -/
def approve (tw : TokenWorld) (t o s : Addr) (v : Nat) : TokenWorld :=
  { balances := tw.balances, allowances := setAllow tw.allowances t o s v }

/-- The whole on-chain state the Escrow contract interacts with: its own
storage (counter, operations mapping, allowlist mapping and list, ordered
id index, Ownable owner, ReentrancyGuard status flag) plus the token
environment. -/
structure World where
  owner : Addr
  guardEntered : Bool
  operationCounter : Nat
  operations : Nat → Operation
  allowedTokens : Addr → Bool
  allowedTokensList : List Addr
  operationIds : List Nat
  tokens : TokenWorld

/-- The revert reasons of the contract, one constructor per require string
or OpenZeppelin custom error. -/
inductive RequireMsg where
  /-- require in addToken: Invalid token address -/
  | invalidTokenAddress
  /-- require in addToken: Token already allowed -/
  | tokenAlreadyAllowed
  /-- require in createOperation: TokenA not allowed -/
  | tokenANotAllowed
  /-- require in createOperation: TokenB not allowed -/
  | tokenBNotAllowed
  /-- require in createOperation: Tokens must be different -/
  | tokensMustDiffer
  /-- require in createOperation: AmountA must be greater than 0 -/
  | amountANotPositive
  /-- require in createOperation: AmountB must be greater than 0 -/
  | amountBNotPositive
  /-- require in completeOperation and cancelOperation: Operation does not exist -/
  | opDoesNotExist
  /-- require in completeOperation and cancelOperation: Operation not active -/
  | opNotActive
  /-- require in completeOperation: Creator cannot complete own operation -/
  | creatorCannotComplete
  /-- require in cancelOperation: Only creator can cancel -/
  | onlyCreatorCanCancel
  /-- OpenZeppelin Ownable: OwnableUnauthorizedAccount -/
  | notOwner
deriving DecidableEq, Repr

/-- Error taxonomy of the specification, each carrying the concrete revert
reason of the source. -/
inductive EscrowError where
  | ReentrancyError
  | AuthorizationError (m : RequireMsg)
  | ValidationError (m : RequireMsg)
  | StateError (m : RequireMsg)
  | TransferError
deriving DecidableEq, Repr

/-- OpenZeppelin ReentrancyGuard nonReentrant modifier: revert if the guard
is already engaged, otherwise run the body with the guard engaged and
disengage it on successful return (a revert inside the body reverts the
whole call, guard flag included). -/
def nonReentrant {α : Type} (w : World) (body : World → Except EscrowError (World × α)) :
    Except EscrowError (World × α) :=
  if w.guardEntered then Except.error EscrowError.ReentrancyError
  else
    match body { w with guardEntered := true } with
    | Except.error e => Except.error e
    | Except.ok (w2, a) => Except.ok ({ w2 with guardEntered := false }, a)

/-- Escrow.addToken: onlyOwner, no reentrancy guard in the source. -/
def addToken (w : World) (sender t : Addr) : Except EscrowError World :=
  if sender ≠ w.owner then Except.error (EscrowError.AuthorizationError RequireMsg.notOwner)
  else if t = 0 then Except.error (EscrowError.ValidationError RequireMsg.invalidTokenAddress)
  else if w.allowedTokens t then Except.error (EscrowError.StateError RequireMsg.tokenAlreadyAllowed)
  else Except.ok { w with
    allowedTokens := fun t2 => if t2 = t then true else w.allowedTokens t2,
    allowedTokensList := w.allowedTokensList ++ [t] }

def updOps (f : Nat → Operation) (i : Nat) (op : Operation) : Nat → Operation :=
  fun j => if j = i then op else f j

/-- Escrow.createOperation, called by `sender` on the contract deployed at
`esc`: nonReentrant; validation, then safeTransferFrom of amountA into
custody, then the record write, index push and counter post-increment. The
source function is declared void — it returns nothing to the caller, and
the new id is surfaced only through the OperationCreated event — so a
successful call yields only the new state (and the unit value). -/
def createOperation (esc : Addr) (w : World) (sender tA tB : Addr) (aA aB : Nat) :
    Except EscrowError (World × Unit) :=
  nonReentrant w fun w1 =>
    if w1.allowedTokens tA = false then
      Except.error (EscrowError.ValidationError RequireMsg.tokenANotAllowed)
    else if w1.allowedTokens tB = false then
      Except.error (EscrowError.ValidationError RequireMsg.tokenBNotAllowed)
    else if tA = tB then
      Except.error (EscrowError.ValidationError RequireMsg.tokensMustDiffer)
    else if aA = 0 then
      Except.error (EscrowError.ValidationError RequireMsg.amountANotPositive)
    else if aB = 0 then
      Except.error (EscrowError.ValidationError RequireMsg.amountBNotPositive)
    else
      match transferFrom w1.tokens tA esc sender esc aA with
      | none => Except.error EscrowError.TransferError
      | some tw =>
        let nid := w1.operationCounter
        let op : Operation :=
          { id := nid, creator := sender, tokenA := tA, tokenB := tB,
            amountA := aA, amountB := aB, status := OperationStatus.Active,
            completer := 0 }
        Except.ok ({ w1 with
          tokens := tw,
          operations := updOps w1.operations nid op,
          operationIds := w1.operationIds ++ [nid],
          operationCounter := nid + 1 }, ())

/-- The createOperation the specification describes, which differs from the
source in one place: it additionally returns the new id to the caller
("Returns the new `id`"). Declared only to be compared with the source's
void createOperation above; it is not part of the embedding of the code. -/
def createOperationRet (esc : Addr) (w : World) (sender tA tB : Addr) (aA aB : Nat) :
    Except EscrowError (World × Nat) :=
  nonReentrant w fun w1 =>
    if w1.allowedTokens tA = false then
      Except.error (EscrowError.ValidationError RequireMsg.tokenANotAllowed)
    else if w1.allowedTokens tB = false then
      Except.error (EscrowError.ValidationError RequireMsg.tokenBNotAllowed)
    else if tA = tB then
      Except.error (EscrowError.ValidationError RequireMsg.tokensMustDiffer)
    else if aA = 0 then
      Except.error (EscrowError.ValidationError RequireMsg.amountANotPositive)
    else if aB = 0 then
      Except.error (EscrowError.ValidationError RequireMsg.amountBNotPositive)
    else
      match transferFrom w1.tokens tA esc sender esc aA with
      | none => Except.error EscrowError.TransferError
      | some tw =>
        let nid := w1.operationCounter
        let op : Operation :=
          { id := nid, creator := sender, tokenA := tA, tokenB := tB,
            amountA := aA, amountB := aB, status := OperationStatus.Active,
            completer := 0 }
        Except.ok ({ w1 with
          tokens := tw,
          operations := updOps w1.operations nid op,
          operationIds := w1.operationIds ++ [nid],
          operationCounter := nid + 1 }, nid)

/-- Escrow.completeOperation, called by `sender`: nonReentrant; existence,
status and authorization checks, then the status and completer writes
(checks-effects-interactions), then safeTransferFrom of amountB from the
completer to the creator and safeTransfer of amountA from custody to the
completer. -/
def completeOperation (esc : Addr) (w : World) (sender : Addr) (oid : Nat) :
    Except EscrowError (World × Unit) :=
  nonReentrant w fun w1 =>
    let op := w1.operations oid
    if op.creator = 0 then
      Except.error (EscrowError.StateError RequireMsg.opDoesNotExist)
    else if op.status ≠ OperationStatus.Active then
      Except.error (EscrowError.StateError RequireMsg.opNotActive)
    else if sender = op.creator then
      Except.error (EscrowError.AuthorizationError RequireMsg.creatorCannotComplete)
    else
      let op2 := { op with status := OperationStatus.Completed, completer := sender }
      let w2 := { w1 with operations := updOps w1.operations oid op2 }
      match transferFrom w2.tokens op.tokenB esc sender op.creator op.amountB with
      | none => Except.error EscrowError.TransferError
      | some tw1 =>
        match transfer tw1 op.tokenA esc sender op.amountA with
        | none => Except.error EscrowError.TransferError
        | some tw2 => Except.ok ({ w2 with tokens := tw2 }, ())

/-- Escrow.cancelOperation, called by `sender`: nonReentrant; existence,
status and authorization checks, then the status write, then safeTransfer
of amountA from custody back to the creator. -/
def cancelOperation (esc : Addr) (w : World) (sender : Addr) (oid : Nat) :
    Except EscrowError (World × Unit) :=
  nonReentrant w fun w1 =>
    let op := w1.operations oid
    if op.creator = 0 then
      Except.error (EscrowError.StateError RequireMsg.opDoesNotExist)
    else if op.status ≠ OperationStatus.Active then
      Except.error (EscrowError.StateError RequireMsg.opNotActive)
    else if sender ≠ op.creator then
      Except.error (EscrowError.AuthorizationError RequireMsg.onlyCreatorCanCancel)
    else
      let op2 := { op with status := OperationStatus.Cancelled }
      let w2 := { w1 with operations := updOps w1.operations oid op2 }
      match transfer w2.tokens op.tokenA esc op.creator op.amountA with
      | none => Except.error EscrowError.TransferError
      | some tw1 => Except.ok ({ w2 with tokens := tw1 }, ())

/-- Escrow.getAllowedTokens. -/
def getAllowedTokens (w : World) : List Addr := w.allowedTokensList

/-- Escrow.getAllOperations: the operations mapping read back along the
ordered id index. -/
def getAllOperations (w : World) : List Operation :=
  w.operationIds.map (fun i => w.operations i)

/-- Escrow.getOperation: the unset-creator sentinel detects absence. -/
def getOperation (w : World) (oid : Nat) : Except EscrowError Operation :=
  if (w.operations oid).creator = 0 then
    Except.error (EscrowError.StateError RequireMsg.opDoesNotExist)
  else Except.ok (w.operations oid)

/-- Escrow.getOperationCount. -/
def getOperationCount (w : World) : Nat := w.operationCounter

/-- The state an external caller observes after a call: the new state on
success, the untouched pre-state on revert. -/
def afterCall {α : Type} (w : World) (r : Except EscrowError (World × α)) : World :=
  match r with
  | Except.ok (w2, _) => w2
  | Except.error _ => w

def exceptOk {ε α : Type} : Except ε α → Bool
  | Except.ok _ => true
  | Except.error _ => false

/-- One observable successful step against the system: a token-environment
action (approve, or a user-to-user token transfer that does not touch the
custodian address — the custodian itself never initiates token calls), or a
successful call to one of the four Escrow entry points. A reverting call
leaves no trace, so failed calls need no step. -/
inductive Step (esc : Addr) : World → World → Prop where
  | approveStep (w : World) (t o s : Addr) (v : Nat) (ho : o ≠ esc) :
      Step esc w { w with tokens := approve w.tokens t o s v }
  | transferStep (w : World) (t src dst : Addr) (v : Nat) (tw : TokenWorld)
      (hsrc : src ≠ esc) (hdst : dst ≠ esc)
      (ht : transfer w.tokens t src dst v = some tw) :
      Step esc w { w with tokens := tw }
  | addTokenStep (w w2 : World) (sender t : Addr)
      (h : addToken w sender t = Except.ok w2) : Step esc w w2
  | createStep (w w2 : World) (sender tA tB : Addr) (aA aB : Nat)
      (hs : sender ≠ 0)
      (h : createOperation esc w sender tA tB aA aB = Except.ok (w2, ())) :
      Step esc w w2
  | completeStep (w w2 : World) (sender : Addr) (oid : Nat)
      (h : completeOperation esc w sender oid = Except.ok (w2, ())) :
      Step esc w w2
  | cancelStep (w w2 : World) (sender : Addr) (oid : Nat)
      (h : cancelOperation esc w sender oid = Except.ok (w2, ())) :
      Step esc w w2

/-- Zero or more steps. -/
def Reaches (esc : Addr) : World → World → Prop :=
  Relation.ReflTransGen (Step esc)

/-- The state right after the constructor of Escrow.sol runs: empty storage,
guard disengaged, and a token environment in which the freshly deployed
custodian holds no balance and has granted no allowance. -/
structure InitWorld (esc : Addr) (w : World) : Prop where
  guard : w.guardEntered = false
  counter : w.operationCounter = 0
  ops : ∀ i, w.operations i = Operation.zero
  ids : w.operationIds = []
  alist : w.allowedTokensList = []
  allow : ∀ t, w.allowedTokens t = false
  bal : ∀ t, w.tokens.balances t esc = 0
  selfAllow : ∀ t s, w.tokens.allowances t esc s = 0

/-- States reachable from deployment by any sequence of conforming token
actions and successful Escrow calls. -/
def Reachable (esc : Addr) (w : World) : Prop :=
  ∃ w0, InitWorld esc w0 ∧ Reaches esc w0 w

/-- The contribution of one operation record to the custodied amount of
asset t: amountA if the record is Active on tokenA = t, else nothing. -/
def activeAmt (op : Operation) (t : Addr) : Nat :=
  if op.tokenA = t ∧ op.status = OperationStatus.Active then op.amountA else 0

/-- The sum of amountA over all recorded operations that are Active with
tokenA = t, read through the contract's own getAllOperations view. -/
def custody (w : World) (t : Addr) : Nat :=
  ((getAllOperations w).map (fun op => activeAmt op t)).sum

/-- Inversion for a successful transferFrom. -/
theorem transferFrom_some {tw : TokenWorld} {t spender src dst : Addr} {amt : Nat}
    {tw2 : TokenWorld} (h : transferFrom tw t spender src dst amt = some tw2) :
    amt ≤ tw.allowances t src spender ∧ amt ≤ tw.balances t src ∧
    tw2 = { balances :=
              setBal (setBal tw.balances t src (tw.balances t src - amt)) t dst
                (setBal tw.balances t src (tw.balances t src - amt) t dst + amt),
            allowances := setAllow tw.allowances t src spender
              (tw.allowances t src spender - amt) } := by
  unfold transferFrom at h
  split_ifs at h with h1 h2
  · exact ⟨h1, h2, (Option.some.injEq _ _ ▸ h).symm⟩

/-- Inversion for a successful transfer. -/
theorem transfer_some {tw : TokenWorld} {t src dst : Addr} {amt : Nat}
    {tw2 : TokenWorld} (h : transfer tw t src dst amt = some tw2) :
    amt ≤ tw.balances t src ∧
    tw2 = { balances :=
              setBal (setBal tw.balances t src (tw.balances t src - amt)) t dst
                (setBal tw.balances t src (tw.balances t src - amt) t dst + amt),
            allowances := tw.allowances } := by
  unfold transfer at h
  split_ifs at h with h1
  · exact ⟨h1, (Option.some.injEq _ _ ▸ h).symm⟩

/-- Inversion for the nonReentrant wrapper. -/
theorem nonReentrant_ok {α : Type} {w : World}
    {body : World → Except EscrowError (World × α)} {w2 : World} {a : α}
    (h : nonReentrant w body = Except.ok (w2, a)) :
    w.guardEntered = false ∧
    ∃ w3, body { w with guardEntered := true } = Except.ok (w3, a) ∧
      w2 = { w3 with guardEntered := false } := by
  unfold nonReentrant at h
  split_ifs at h with hg
  refine ⟨by simpa using hg, ?_⟩
  cases hb : body { w with guardEntered := true } with
  | error e => rw [hb] at h; exact absurd h (by simp)
  | ok p =>
    obtain ⟨w3, a3⟩ := p
    rw [hb] at h
    simp only [Except.ok.injEq, Prod.mk.injEq] at h
    exact ⟨w3, by rw [h.2], h.1.symm⟩

/-- Inversion for a successful addToken. -/
theorem addToken_ok {w w2 : World} {sender t : Addr}
    (h : addToken w sender t = Except.ok w2) :
    sender = w.owner ∧ t ≠ 0 ∧ w.allowedTokens t = false ∧
    w2 = { w with
      allowedTokens := fun t2 => if t2 = t then true else w.allowedTokens t2,
      allowedTokensList := w.allowedTokensList ++ [t] } := by
  unfold addToken at h
  split_ifs at h with h1 h2 h3
  · refine ⟨not_not.mp h1, h2, ?_, (Except.ok.injEq _ _ ▸ h).symm⟩
    simp only [Bool.not_eq_true] at h3
    exact h3

/-- Inversion for a successful createOperation. -/
theorem createOperation_ok {esc : Addr} {w : World} {sender tA tB : Addr}
    {aA aB : Nat} {w2 : World}
    (h : createOperation esc w sender tA tB aA aB = Except.ok (w2, ())) :
    w.guardEntered = false ∧
    w.allowedTokens tA = true ∧ w.allowedTokens tB = true ∧
    tA ≠ tB ∧ aA ≠ 0 ∧ aB ≠ 0 ∧
    ∃ tw, transferFrom w.tokens tA esc sender esc aA = some tw ∧
      w2 = { w with
        guardEntered := false,
        tokens := tw,
        operations := updOps w.operations w.operationCounter
          { id := w.operationCounter, creator := sender, tokenA := tA, tokenB := tB,
            amountA := aA, amountB := aB, status := OperationStatus.Active,
            completer := 0 },
        operationIds := w.operationIds ++ [w.operationCounter],
        operationCounter := w.operationCounter + 1 } := by
  obtain ⟨hg, w3, hb, hw2⟩ := nonReentrant_ok h
  simp only at hb
  split_ifs at hb with h1 h2 h3 h4 h5
  cases htf : transferFrom w.tokens tA esc sender esc aA with
  | none => rw [htf] at hb; exact absurd hb (by simp)
  | some tw =>
    rw [htf] at hb
    simp only [Except.ok.injEq, Prod.mk.injEq, and_true] at hb
    refine ⟨hg, by simpa using h1, by simpa using h2, h3, h4, h5, tw, rfl, ?_⟩
    rw [hw2, ← hb]

/-- Inversion for a successful completeOperation. -/
theorem completeOperation_ok {esc : Addr} {w : World} {sender : Addr} {oid : Nat}
    {w2 : World} (h : completeOperation esc w sender oid = Except.ok (w2, ())) :
    w.guardEntered = false ∧
    (w.operations oid).creator ≠ 0 ∧
    (w.operations oid).status = OperationStatus.Active ∧
    sender ≠ (w.operations oid).creator ∧
    ∃ tw1 tw2,
      transferFrom w.tokens (w.operations oid).tokenB esc sender
        (w.operations oid).creator (w.operations oid).amountB = some tw1 ∧
      transfer tw1 (w.operations oid).tokenA esc sender
        (w.operations oid).amountA = some tw2 ∧
      w2 = { w with
        guardEntered := false,
        operations := updOps w.operations oid
          { w.operations oid with
            status := OperationStatus.Completed,
            completer := sender },
        tokens := tw2 } := by
  obtain ⟨hg, w3, hb, hw2⟩ := nonReentrant_ok h
  simp only at hb
  split_ifs at hb with h1 h2 h3
  cases htf : transferFrom w.tokens (w.operations oid).tokenB esc sender
      (w.operations oid).creator (w.operations oid).amountB with
  | none => rw [htf] at hb; exact absurd hb (by simp)
  | some tw1 =>
    rw [htf] at hb
    simp only at hb
    cases htr : transfer tw1 (w.operations oid).tokenA esc sender
        (w.operations oid).amountA with
    | none => rw [htr] at hb; exact absurd hb (by simp)
    | some tw2 =>
      rw [htr] at hb
      simp only [Except.ok.injEq, Prod.mk.injEq] at hb
      refine ⟨hg, h1, not_not.mp h2, h3, tw1, tw2, rfl, htr, ?_⟩
      rw [hw2, ← hb.1]

/-- Inversion for a successful cancelOperation. -/
theorem cancelOperation_ok {esc : Addr} {w : World} {sender : Addr} {oid : Nat}
    {w2 : World} (h : cancelOperation esc w sender oid = Except.ok (w2, ())) :
    w.guardEntered = false ∧
    (w.operations oid).creator ≠ 0 ∧
    (w.operations oid).status = OperationStatus.Active ∧
    sender = (w.operations oid).creator ∧
    ∃ tw1,
      transfer w.tokens (w.operations oid).tokenA esc
        (w.operations oid).creator (w.operations oid).amountA = some tw1 ∧
      w2 = { w with
        guardEntered := false,
        operations := updOps w.operations oid
          { w.operations oid with status := OperationStatus.Cancelled },
        tokens := tw1 } := by
  obtain ⟨hg, w3, hb, hw2⟩ := nonReentrant_ok h
  simp only at hb
  split_ifs at hb with h1 h2 h3
  cases htr : transfer w.tokens (w.operations oid).tokenA esc
      (w.operations oid).creator (w.operations oid).amountA with
  | none => rw [htr] at hb; exact absurd hb (by simp)
  | some tw1 =>
    rw [htr] at hb
    simp only [Except.ok.injEq, Prod.mk.injEq] at hb
    refine ⟨hg, h1, not_not.mp h2, not_not.mp h3, tw1, rfl, ?_⟩
    rw [hw2, ← hb.1]

/-- C4: for an existing Active operation, completeOperation called by the
operation's creator always reverts with an AuthorizationError, and
cancelOperation called by anyone other than the creator always reverts with
an AuthorizationError; in both cases the caller-observed state is the
untouched pre-state. -/
theorem authorization_checks (esc : Addr) (w : World) (sender : Addr) (oid : Nat)
    (hg : w.guardEntered = false)
    (hex : (w.operations oid).creator ≠ 0)
    (hact : (w.operations oid).status = OperationStatus.Active) :
    completeOperation esc w (w.operations oid).creator oid
      = Except.error (EscrowError.AuthorizationError RequireMsg.creatorCannotComplete)
    ∧ afterCall w (completeOperation esc w (w.operations oid).creator oid) = w
    ∧ (sender ≠ (w.operations oid).creator →
        cancelOperation esc w sender oid
          = Except.error (EscrowError.AuthorizationError RequireMsg.onlyCreatorCanCancel)
        ∧ afterCall w (cancelOperation esc w sender oid) = w) := by
  have hc : completeOperation esc w (w.operations oid).creator oid
      = Except.error (EscrowError.AuthorizationError RequireMsg.creatorCannotComplete) := by
    unfold completeOperation nonReentrant
    simp [hg, hex, hact]
  refine ⟨hc, by rw [hc]; rfl, fun hns => ?_⟩
  have hx : cancelOperation esc w sender oid
      = Except.error (EscrowError.AuthorizationError RequireMsg.onlyCreatorCanCancel) := by
    unfold cancelOperation nonReentrant
    simp [hg, hex, hact, hns]
  exact ⟨hx, by rw [hx]; rfl⟩

/-- C7: createOperation rejects a non-allowlisted token, equal tokens, or a
zero amount with a ValidationError, before any transfer and with no state
write, whatever the token balances and allowances are. -/
theorem createOperation_validation (esc : Addr) (w : World) (sender tA tB : Addr)
    (aA aB : Nat) (hg : w.guardEntered = false)
    (hbad : w.allowedTokens tA = false ∨ w.allowedTokens tB = false ∨ tA = tB ∨
      aA = 0 ∨ aB = 0) :
    (∃ m, createOperation esc w sender tA tB aA aB
        = Except.error (EscrowError.ValidationError m))
    ∧ afterCall w (createOperation esc w sender tA tB aA aB) = w := by
  have key : ∃ m, createOperation esc w sender tA tB aA aB
      = Except.error (EscrowError.ValidationError m) := by
    unfold createOperation nonReentrant
    by_cases h1 : w.allowedTokens tA = false
    · exact ⟨RequireMsg.tokenANotAllowed, by simp [hg, h1]⟩
    · by_cases h2 : w.allowedTokens tB = false
      · exact ⟨RequireMsg.tokenBNotAllowed, by simp [hg, h1, h2]⟩
      · by_cases h3 : tA = tB
        · exact ⟨RequireMsg.tokensMustDiffer, by simp [hg, h1, h2, h3]⟩
        · by_cases h4 : aA = 0
          · exact ⟨RequireMsg.amountANotPositive, by simp [hg, h1, h2, h3, h4]⟩
          · by_cases h5 : aB = 0
            · exact ⟨RequireMsg.amountBNotPositive, by simp [hg, h1, h2, h3, h4, h5]⟩
            · rcases hbad with h | h | h | h | h <;> contradiction
  obtain ⟨m, hm⟩ := key
  exact ⟨⟨m, hm⟩, by rw [hm]; rfl⟩

/-- C2: if either of the two transfers inside completeOperation fails, the
whole call reverts with a TransferError; the caller-observed state is the
untouched pre-state, in which the operation is still Active, its completer
unchanged and no balances moved — even though the status write textually
precedes the transfers. -/
theorem completeOperation_atomic (esc : Addr) (w : World) (sender : Addr) (oid : Nat)
    (hg : w.guardEntered = false)
    (hex : (w.operations oid).creator ≠ 0)
    (hact : (w.operations oid).status = OperationStatus.Active)
    (hns : sender ≠ (w.operations oid).creator)
    (hfail :
      transferFrom w.tokens (w.operations oid).tokenB esc sender
        (w.operations oid).creator (w.operations oid).amountB = none ∨
      ∃ tw1, transferFrom w.tokens (w.operations oid).tokenB esc sender
          (w.operations oid).creator (w.operations oid).amountB = some tw1 ∧
        transfer tw1 (w.operations oid).tokenA esc sender
          (w.operations oid).amountA = none) :
    completeOperation esc w sender oid = Except.error EscrowError.TransferError
    ∧ afterCall w (completeOperation esc w sender oid) = w
    ∧ ((afterCall w (completeOperation esc w sender oid)).operations oid).status
        = OperationStatus.Active
    ∧ (afterCall w (completeOperation esc w sender oid)).tokens = w.tokens := by
  have key : completeOperation esc w sender oid
      = Except.error EscrowError.TransferError := by
    unfold completeOperation nonReentrant
    rcases hfail with hf | ⟨tw1, hf1, hf2⟩
    · simp [hg, hex, hact, hns, hf]
    · simp [hg, hex, hact, hns, hf1, hf2]
  refine ⟨key, by rw [key]; rfl, ?_, by rw [key]; rfl⟩
  have : afterCall w (completeOperation esc w sender oid) = w := by rw [key]; rfl
  rw [this, hact]

/-- C5 (amended): the three nonReentrant entry points — createOperation,
completeOperation, cancelOperation — reject any invocation made while the
guard is engaged (in particular a nested call issued from within an
in-flight transfer) with a ReentrancyError and no state change. addToken
carries no reentrancy guard in the source, so it is not covered. -/
theorem reentrancy_rejection (esc : Addr) (w : World) (sender tA tB : Addr)
    (aA aB oid : Nat) (hg : w.guardEntered = true) :
    createOperation esc w sender tA tB aA aB = Except.error EscrowError.ReentrancyError
    ∧ completeOperation esc w sender oid = Except.error EscrowError.ReentrancyError
    ∧ cancelOperation esc w sender oid = Except.error EscrowError.ReentrancyError
    ∧ afterCall w (createOperation esc w sender tA tB aA aB) = w
    ∧ afterCall w (completeOperation esc w sender oid) = w
    ∧ afterCall w (cancelOperation esc w sender oid) = w := by
  have h1 : createOperation esc w sender tA tB aA aB
      = Except.error EscrowError.ReentrancyError := by
    unfold createOperation nonReentrant; simp [hg]
  have h2 : completeOperation esc w sender oid
      = Except.error EscrowError.ReentrancyError := by
    unfold completeOperation nonReentrant; simp [hg]
  have h3 : cancelOperation esc w sender oid
      = Except.error EscrowError.ReentrancyError := by
    unfold cancelOperation nonReentrant; simp [hg]
  exact ⟨h1, h2, h3, by rw [h1]; rfl, by rw [h2]; rfl, by rw [h3]; rfl⟩

/-- C6 (amended): a successful createOperation assigns the counter's current
value as the new operation's id, increments the counter by one, appends the
id to the ordered index (keeping it gap-free whenever it was), and records
the new Active operation under that id with creator = caller and completer
unset; the source function is void — it returns nothing to the caller, the
id being surfaced only through the OperationCreated event — and the
returning variant the specification describes would surface exactly that
counter value. -/
theorem createOperation_id_allocation (esc : Addr) (w : World) (sender tA tB : Addr)
    (aA aB : Nat) (w2 : World)
    (h : createOperation esc w sender tA tB aA aB = Except.ok (w2, ())) :
    w2.operationCounter = w.operationCounter + 1
    ∧ w2.operationIds = w.operationIds ++ [w.operationCounter]
    ∧ w2.operations w.operationCounter =
        { id := w.operationCounter, creator := sender, tokenA := tA, tokenB := tB,
          amountA := aA, amountB := aB, status := OperationStatus.Active,
          completer := 0 }
    ∧ (w.operationIds = List.range w.operationCounter →
        w2.operationIds = List.range w2.operationCounter)
    ∧ createOperationRet esc w sender tA tB aA aB
        = Except.ok (w2, w.operationCounter) := by
  obtain ⟨hg, h1, h2, h3, h4, h5, tw, htf, hw2⟩ := createOperation_ok h
  refine ⟨by rw [hw2], by rw [hw2], by rw [hw2]; simp [updOps], ?_, ?_⟩
  · intro hr
    rw [hw2]
    show w.operationIds ++ [w.operationCounter] = List.range (w.operationCounter + 1)
    rw [hr, List.range_succ]
  · unfold createOperationRet nonReentrant
    rw [hw2]
    simp [hg, h1, h2, h3, h4, h5, htf]

/-- C9: a successful completeOperation rewrites only the status and completer
of its operation (token balances aside), a successful cancelOperation only
the status; every other operation record, the remaining fields of the
touched record, the allowlist, the ordered id index, the counter and the
owner are unchanged, and no record is deleted. -/
theorem terminal_frame (esc : Addr) (w : World) (sender : Addr) (oid : Nat) :
    (∀ w2, completeOperation esc w sender oid = Except.ok (w2, ()) →
      w2.operations oid = { w.operations oid with
        status := OperationStatus.Completed,
        completer := sender }
      ∧ (∀ j, j ≠ oid → w2.operations j = w.operations j)
      ∧ w2.operationCounter = w.operationCounter
      ∧ w2.operationIds = w.operationIds
      ∧ w2.allowedTokens = w.allowedTokens
      ∧ w2.allowedTokensList = w.allowedTokensList
      ∧ w2.owner = w.owner)
    ∧ (∀ w2, cancelOperation esc w sender oid = Except.ok (w2, ()) →
      w2.operations oid = { w.operations oid with
        status := OperationStatus.Cancelled }
      ∧ (∀ j, j ≠ oid → w2.operations j = w.operations j)
      ∧ w2.operationCounter = w.operationCounter
      ∧ w2.operationIds = w.operationIds
      ∧ w2.allowedTokens = w.allowedTokens
      ∧ w2.allowedTokensList = w.allowedTokensList
      ∧ w2.owner = w.owner) := by
  refine ⟨fun w2 h => ?_, fun w2 h => ?_⟩
  · obtain ⟨hg, hex, hact, hns, tw1, tw2, htf, htr, hw2⟩ := completeOperation_ok h
    subst hw2
    exact ⟨by simp [updOps], fun j hj => by simp [updOps, hj], rfl, rfl, rfl, rfl, rfl⟩
  · obtain ⟨hg, hex, hact, hns, tw1, htr, hw2⟩ := cancelOperation_ok h
    subst hw2
    exact ⟨by simp [updOps], fun j hj => by simp [updOps, hj], rfl, rfl, rfl, rfl, rfl⟩

/-- C8: if a createOperation succeeds and the creator then successfully
cancels the resulting operation, the creator's balance of tokenA after the
cancel equals their balance before the create. -/
theorem create_cancel_roundtrip (esc : Addr) (w : World) (c tA tB : Addr)
    (aA aB : Nat) (w1 w2 : World)
    (h1 : createOperation esc w c tA tB aA aB = Except.ok (w1, ()))
    (h2 : cancelOperation esc w1 c w.operationCounter = Except.ok (w2, ())) :
    w2.tokens.balances tA c = w.tokens.balances tA c := by
  obtain ⟨hg, hA, hB, hAB, haA, haB, tw, htf, hw1⟩ := createOperation_ok h1
  obtain ⟨hal, hbal, htw⟩ := transferFrom_some htf
  obtain ⟨hg1, hex1, hact1, hs1, tw1x, htr, hw2⟩ := cancelOperation_ok h2
  rw [hw1] at htr
  simp only [updOps, if_pos rfl] at htr
  obtain ⟨hb2, htw1⟩ := transfer_some htr
  rw [hw2, hw1]
  simp only
  rw [htw1, htw]
  rw [htw] at hb2
  by_cases hce : c = esc
  · subst hce
    simp only [setBal, and_true, and_self, if_pos rfl, if_true]
    simp only [setBal] at hb2
    simp at hb2 ⊢
    omega
  · simp only [setBal] at hb2 ⊢
    simp [hce, Ne.symm hce] at hb2 ⊢
    omega

/-- Any single step leaves an already-terminal operation record untouched,
keeps its id below the counter, and leaves the guard disengaged. -/
theorem step_preserves_terminal {esc : Addr} {w w2 : World} (oid : Nat)
    (hs : Step esc w w2)
    (hid : oid < w.operationCounter)
    (hg : w.guardEntered = false) :
    oid < w2.operationCounter ∧ w2.guardEntered = false ∧
    ((w.operations oid).status ≠ OperationStatus.Active →
      w2.operations oid = w.operations oid) := by
  cases hs with
  | approveStep t o s v ho => exact ⟨hid, hg, fun _ => rfl⟩
  | transferStep t src dst v tw hsrc hdst ht => exact ⟨hid, hg, fun _ => rfl⟩
  | addTokenStep w2x sender t h =>
    obtain ⟨h1, h2, h3, hw2⟩ := addToken_ok h
    subst hw2
    exact ⟨hid, hg, fun _ => rfl⟩
  | createStep w2x sender tA tB aA aB hs0 h =>
    obtain ⟨hg0, hA, hB, hAB, haA, haB, tw, htf, hw2⟩ := createOperation_ok h
    subst hw2
    refine ⟨Nat.lt_succ_of_lt hid, rfl, fun _ => ?_⟩
    simp [updOps, Nat.ne_of_lt hid]
  | completeStep w2x sender oid2 h =>
    obtain ⟨hg0, hex, hact, hns, tw1, tw2x, htf, htr, hw2⟩ := completeOperation_ok h
    subst hw2
    refine ⟨hid, rfl, fun hterm => ?_⟩
    by_cases he : oid = oid2
    · subst he; exact absurd hact hterm
    · simp [updOps, he]
  | cancelStep w2x sender oid2 h =>
    obtain ⟨hg0, hex, hact, hns, tw1, htr, hw2⟩ := cancelOperation_ok h
    subst hw2
    refine ⟨hid, rfl, fun hterm => ?_⟩
    by_cases he : oid = oid2
    · subst he; exact absurd hact hterm
    · simp [updOps, he]

/-- C3: a successful completeOperation leaves the status Completed and a
successful cancelOperation leaves it Cancelled, and once an operation's
status is Completed or Cancelled, every later completeOperation or
cancelOperation on its id — by any caller, after any further sequence of
steps — reverts with the StateError for an inactive operation; hence at
most one of the two terminal transitions ever succeeds for a given id. -/
theorem single_terminal_transition (esc : Addr) (w w2 : World) (sender : Addr)
    (oid : Nat)
    (hid : oid < w.operationCounter)
    (hex : (w.operations oid).creator ≠ 0)
    (hterm : (w.operations oid).status ≠ OperationStatus.Active)
    (hg : w.guardEntered = false)
    (hsteps : Reaches esc w w2) :
    completeOperation esc w2 sender oid
      = Except.error (EscrowError.StateError RequireMsg.opNotActive)
    ∧ cancelOperation esc w2 sender oid
      = Except.error (EscrowError.StateError RequireMsg.opNotActive)
    ∧ (∀ (u u2 : World) (v : Addr), completeOperation esc u v oid = Except.ok (u2, ()) →
        (u2.operations oid).status = OperationStatus.Completed)
    ∧ (∀ (u u2 : World) (v : Addr), cancelOperation esc u v oid = Except.ok (u2, ()) →
        (u2.operations oid).status = OperationStatus.Cancelled) := by
  have main : oid < w2.operationCounter ∧ w2.guardEntered = false ∧
      w2.operations oid = w.operations oid := by
    induction hsteps with
    | refl => exact ⟨hid, hg, rfl⟩
    | tail hab hbc ih =>
      obtain ⟨ih1, ih2, ih3⟩ := ih
      obtain ⟨p1, p2, p3⟩ := step_preserves_terminal oid hbc ih1 ih2
      refine ⟨p1, p2, ?_⟩
      rw [p3 (by rw [ih3]; exact hterm), ih3]
  obtain ⟨m1, m2, m3⟩ := main
  have hex2 : (w2.operations oid).creator ≠ 0 := by rw [m3]; exact hex
  have hterm2 : (w2.operations oid).status ≠ OperationStatus.Active := by
    rw [m3]; exact hterm
  refine ⟨?_, ?_, ?_, ?_⟩
  · unfold completeOperation nonReentrant
    simp [m2, hex2, hterm2]
  · unfold cancelOperation nonReentrant
    simp [m2, hex2, hterm2]
  · intro u u2 v hok
    obtain ⟨_, _, _, _, tw1, tw2x, _, _, hw⟩ := completeOperation_ok hok
    subst hw
    simp [updOps]
  · intro u u2 v hok
    obtain ⟨_, _, _, _, tw1, _, hw⟩ := cancelOperation_ok hok
    subst hw
    simp [updOps]

/-- The custodied amount of asset t, summed over operation indices below n. -/
def activeSumF (ops : Nat → Operation) (n : Nat) (t : Addr) : Nat :=
  Finset.sum (Finset.range n) (fun i => activeAmt (ops i) t)

theorem list_range_sum (f : Nat → Nat) (n : Nat) :
    ((List.range n).map f).sum = Finset.sum (Finset.range n) f := by
  induction n with
  | zero => simp
  | succ n ih =>
    rw [List.range_succ, List.map_append, List.sum_append, Finset.sum_range_succ, ih]
    simp

theorem activeSumF_congr_upd (f : Nat → Operation) (n i : Nat) (op : Operation)
    (t : Addr) (h : n ≤ i) :
    activeSumF (updOps f i op) n t = activeSumF f n t := by
  unfold activeSumF
  refine Finset.sum_congr rfl fun j hj => ?_
  have hji : j ≠ i := by
    have := Finset.mem_range.mp hj
    omega
  simp [updOps, hji]

theorem activeSumF_update (f : Nat → Operation) (n oid : Nat) (op2 : Operation)
    (t : Addr) (h : oid < n) :
    activeSumF (updOps f oid op2) n t + activeAmt (f oid) t
      = activeSumF f n t + activeAmt op2 t := by
  unfold activeSumF
  have hmem : oid ∈ Finset.range n := Finset.mem_range.mpr h
  rw [← Finset.add_sum_erase _ (fun i => activeAmt (updOps f oid op2 i) t) hmem,
      ← Finset.add_sum_erase _ (fun i => activeAmt (f i) t) hmem]
  have hcong : Finset.sum ((Finset.range n).erase oid)
        (fun i => activeAmt (updOps f oid op2 i) t)
      = Finset.sum ((Finset.range n).erase oid) (fun i => activeAmt (f i) t) := by
    refine Finset.sum_congr rfl fun j hj => ?_
    have hji : j ≠ oid := Finset.ne_of_mem_erase hj
    simp [updOps, hji]
  rw [hcong]
  simp [updOps]
  omega

/-- Balance effect, on the custodian, of a deposit transferFrom into custody. -/
theorem tf_bal_esc {tw tw2 : TokenWorld} {tA sender esc : Addr} {aA : Nat}
    (h : transferFrom tw tA esc sender esc aA = some tw2) (hs : sender ≠ esc)
    (t : Addr) :
    tw2.balances t esc = tw.balances t esc + (if tA = t then aA else 0) := by
  obtain ⟨hal, hbal, htw⟩ := transferFrom_some h
  rw [htw]
  by_cases ht : t = tA
  · subst ht
    simp [setBal, Ne.symm hs]
  · simp [setBal, ht, Ne.symm ht, Ne.symm hs]

/-- A transferFrom between two parties other than the custodian leaves every
custodian balance unchanged. -/
theorem tf_bal_other {tw tw2 : TokenWorld} {tB esc sender dst : Addr} {aB : Nat}
    (h : transferFrom tw tB esc sender dst aB = some tw2)
    (hs : sender ≠ esc) (hd : dst ≠ esc) (t : Addr) :
    tw2.balances t esc = tw.balances t esc := by
  obtain ⟨hal, hbal, htw⟩ := transferFrom_some h
  rw [htw]
  simp [setBal, Ne.symm hs, Ne.symm hd]

/-- Balance effect, on the custodian, of a transfer out of custody. -/
theorem tr_bal_esc {tw tw2 : TokenWorld} {tA esc dst : Addr} {aA : Nat}
    (h : transfer tw tA esc dst aA = some tw2) (hd : dst ≠ esc) (t : Addr) :
    tw2.balances t esc = tw.balances t esc - (if tA = t then aA else 0) := by
  obtain ⟨hbal, htw⟩ := transfer_some h
  rw [htw]
  by_cases ht : t = tA
  · subst ht
    simp [setBal, Ne.symm hd]
  · simp [setBal, ht, Ne.symm ht, Ne.symm hd]

/-- A transfer between two parties other than the custodian leaves every
custodian balance unchanged. -/
theorem tr_bal_other {tw tw2 : TokenWorld} {t0 src dst esc : Addr} {v : Nat}
    (h : transfer tw t0 src dst v = some tw2)
    (hs : src ≠ esc) (hd : dst ≠ esc) (t : Addr) :
    tw2.balances t esc = tw.balances t esc := by
  obtain ⟨hbal, htw⟩ := transfer_some h
  rw [htw]
  simp [setBal, Ne.symm hs, Ne.symm hd]

/-- transferFrom spends an allowance of its source, so allowances granted by
a different owner are unchanged. -/
theorem tf_allow_other {tw tw2 : TokenWorld} {t0 spender src dst esc : Addr} {v : Nat}
    (h : transferFrom tw t0 spender src dst v = some tw2) (hs : src ≠ esc)
    (t s : Addr) :
    tw2.allowances t esc s = tw.allowances t esc s := by
  obtain ⟨hal, hbal, htw⟩ := transferFrom_some h
  rw [htw]
  simp [setAllow, Ne.symm hs]

/-- transfer never touches allowances. -/
theorem tr_allow {tw tw2 : TokenWorld} {t0 src dst : Addr} {v : Nat}
    (h : transfer tw t0 src dst v = some tw2) :
    tw2.allowances = tw.allowances := by
  obtain ⟨hbal, htw⟩ := transfer_some h
  rw [htw]

/-- The inductive invariant of reachable states: guard disengaged, the id
index is exactly the range of the counter, records beyond the counter are
unset, recorded operations have a nonzero non-custodian creator, matching
id field and nonzero amountB, the custodian has granted no allowances, and
the custodian's balance of every asset is the active sum. -/
structure EscInv (esc : Addr) (w : World) : Prop where
  guard : w.guardEntered = false
  ids : w.operationIds = List.range w.operationCounter
  fresh : ∀ i, w.operationCounter ≤ i → w.operations i = Operation.zero
  creatorNz : ∀ i, i < w.operationCounter → (w.operations i).creator ≠ 0
  creatorNe : ∀ i, i < w.operationCounter → (w.operations i).creator ≠ esc
  idField : ∀ i, i < w.operationCounter → (w.operations i).id = i
  amtBpos : ∀ i, i < w.operationCounter → (w.operations i).amountB ≠ 0
  selfAllow : ∀ t s, w.tokens.allowances t esc s = 0
  conserve : ∀ t, w.tokens.balances t esc = activeSumF w.operations w.operationCounter t

theorem inv_init {esc : Addr} {w : World} (h : InitWorld esc w) : EscInv esc w := by
  obtain ⟨hg, hc, hops, hids, halist, hat, hb, hsa⟩ := h
  refine ⟨hg, by rw [hids, hc]; rfl, fun i _ => hops i, ?_, ?_, ?_, ?_, hsa, ?_⟩
  · intro i hlt; rw [hc] at hlt; omega
  · intro i hlt; rw [hc] at hlt; omega
  · intro i hlt; rw [hc] at hlt; omega
  · intro i hlt; rw [hc] at hlt; omega
  · intro t
    rw [hb t, hc]
    rfl

theorem inv_step {esc : Addr} {w w2 : World} (hi : EscInv esc w)
    (hs : Step esc w w2) : EscInv esc w2 := by
  cases hs with
  | approveStep t o s v ho =>
    refine ⟨hi.guard, hi.ids, hi.fresh, hi.creatorNz, hi.creatorNe, hi.idField,
      hi.amtBpos, ?_, hi.conserve⟩
    intro t2 s2
    simp [approve, setAllow, Ne.symm ho, hi.selfAllow]
  | transferStep t src dst v tw hsrc hdst ht =>
    refine ⟨hi.guard, hi.ids, hi.fresh, hi.creatorNz, hi.creatorNe, hi.idField,
      hi.amtBpos, ?_, ?_⟩
    · intro t2 s2
      rw [show tw.allowances = w.tokens.allowances from tr_allow ht]
      exact hi.selfAllow t2 s2
    · intro t2
      rw [show tw.balances t2 esc = w.tokens.balances t2 esc from
        tr_bal_other ht hsrc hdst t2]
      exact hi.conserve t2
  | addTokenStep w2x sender t h =>
    obtain ⟨h1, h2, h3, hw2⟩ := addToken_ok h
    subst hw2
    exact ⟨hi.guard, hi.ids, hi.fresh, hi.creatorNz, hi.creatorNe, hi.idField,
      hi.amtBpos, hi.selfAllow, hi.conserve⟩
  | createStep w2x sender tA tB aA aB hs0 h =>
    obtain ⟨hg0, hA, hB, hAB, haA, haB, tw, htf, hw2⟩ := createOperation_ok h
    subst hw2
    obtain ⟨hal, hbal, htw⟩ := transferFrom_some htf
    have hse : sender ≠ esc := by
      intro he
      rw [he, hi.selfAllow tA esc] at hal
      omega
    refine ⟨rfl, ?_, ?_, ?_, ?_, ?_, ?_, ?_, ?_⟩
    · show w.operationIds ++ [w.operationCounter] = List.range (w.operationCounter + 1)
      rw [hi.ids, List.range_succ]
    · intro i hge
      have hge2 : w.operationCounter + 1 ≤ i := hge
      have hne : i ≠ w.operationCounter := by omega
      simp only [updOps, if_neg hne]
      exact hi.fresh i (by omega)
    · intro i hlt
      have hlt2 : i < w.operationCounter + 1 := hlt
      by_cases he : i = w.operationCounter
      · subst he; simp [updOps, hs0]
      · simp only [updOps, if_neg he]
        exact hi.creatorNz i (by omega)
    · intro i hlt
      have hlt2 : i < w.operationCounter + 1 := hlt
      by_cases he : i = w.operationCounter
      · subst he; simp [updOps, hse]
      · simp only [updOps, if_neg he]
        exact hi.creatorNe i (by omega)
    · intro i hlt
      have hlt2 : i < w.operationCounter + 1 := hlt
      by_cases he : i = w.operationCounter
      · subst he; simp [updOps]
      · simp only [updOps, if_neg he]
        exact hi.idField i (by omega)
    · intro i hlt
      have hlt2 : i < w.operationCounter + 1 := hlt
      by_cases he : i = w.operationCounter
      · subst he; simp [updOps, haB]
      · simp only [updOps, if_neg he]
        exact hi.amtBpos i (by omega)
    · intro t2 s2
      rw [tf_allow_other htf hse t2 s2]
      exact hi.selfAllow t2 s2
    · intro t
      show tw.balances t esc
        = activeSumF (updOps w.operations w.operationCounter _) (w.operationCounter + 1) t
      rw [tf_bal_esc htf hse t, hi.conserve t]
      have h1 : activeSumF (updOps w.operations w.operationCounter
            { id := w.operationCounter, creator := sender, tokenA := tA, tokenB := tB,
              amountA := aA, amountB := aB, status := OperationStatus.Active,
              completer := 0 }) (w.operationCounter + 1) t
          = activeSumF (updOps w.operations w.operationCounter
            { id := w.operationCounter, creator := sender, tokenA := tA, tokenB := tB,
              amountA := aA, amountB := aB, status := OperationStatus.Active,
              completer := 0 }) w.operationCounter t
            + activeAmt (updOps w.operations w.operationCounter
              { id := w.operationCounter, creator := sender, tokenA := tA, tokenB := tB,
                amountA := aA, amountB := aB, status := OperationStatus.Active,
                completer := 0 } w.operationCounter) t := Finset.sum_range_succ _ _
      rw [h1, activeSumF_congr_upd _ _ _ _ _ le_rfl]
      simp [updOps, activeAmt]
  | completeStep w2x sender oid2 h =>
    obtain ⟨hg0, hex, hact, hns, tw1, tw2x, htf, htr, hw2⟩ := completeOperation_ok h
    subst hw2
    have hoid : oid2 < w.operationCounter := by
      by_contra hno
      push_neg at hno
      rw [hi.fresh oid2 hno] at hex
      exact hex rfl
    have hce : (w.operations oid2).creator ≠ esc := hi.creatorNe oid2 hoid
    have hse : sender ≠ esc := by
      intro he
      subst he
      obtain ⟨halB, hbB, _⟩ := transferFrom_some htf
      rw [hi.selfAllow] at halB
      exact hi.amtBpos oid2 hoid (by omega)
    refine ⟨rfl, hi.ids, ?_, ?_, ?_, ?_, ?_, ?_, ?_⟩
    · intro i hge
      have hge2 : w.operationCounter ≤ i := hge
      have hne : i ≠ oid2 := by omega
      simp only [updOps, if_neg hne]
      exact hi.fresh i hge2
    · intro i hlt
      by_cases he : i = oid2
      · subst he; simpa [updOps] using hi.creatorNz i hlt
      · simp only [updOps, if_neg he]; exact hi.creatorNz i hlt
    · intro i hlt
      by_cases he : i = oid2
      · subst he; simpa [updOps] using hi.creatorNe i hlt
      · simp only [updOps, if_neg he]; exact hi.creatorNe i hlt
    · intro i hlt
      by_cases he : i = oid2
      · subst he; simpa [updOps] using hi.idField i hlt
      · simp only [updOps, if_neg he]; exact hi.idField i hlt
    · intro i hlt
      by_cases he : i = oid2
      · subst he; simpa [updOps] using hi.amtBpos i hlt
      · simp only [updOps, if_neg he]; exact hi.amtBpos i hlt
    · intro t2 s2
      rw [show tw2x.allowances = tw1.allowances from tr_allow htr]
      rw [tf_allow_other htf hse t2 s2]
      exact hi.selfAllow t2 s2
    · intro t
      show tw2x.balances t esc
        = activeSumF (updOps w.operations oid2
            { w.operations oid2 with
              status := OperationStatus.Completed,
              completer := sender }) w.operationCounter t
      rw [tr_bal_esc htr hse t, tf_bal_other htf hse hce t, hi.conserve t]
      have hupd := activeSumF_update w.operations w.operationCounter oid2
        { w.operations oid2 with
          status := OperationStatus.Completed,
          completer := sender } t hoid
      have hz : activeAmt { w.operations oid2 with
          status := OperationStatus.Completed,
          completer := sender } t = 0 := by simp [activeAmt]
      have hold : activeAmt (w.operations oid2) t
          = if (w.operations oid2).tokenA = t then (w.operations oid2).amountA else 0 := by
        simp [activeAmt, hact]
      rw [hz, hold] at hupd
      by_cases ht : (w.operations oid2).tokenA = t
      · rw [if_pos ht] at hupd ⊢
        omega
      · rw [if_neg ht] at hupd ⊢
        omega
  | cancelStep w2x sender oid2 h =>
    obtain ⟨hg0, hex, hact, hsend, tw1, htr, hw2⟩ := cancelOperation_ok h
    subst hw2
    have hoid : oid2 < w.operationCounter := by
      by_contra hno
      push_neg at hno
      rw [hi.fresh oid2 hno] at hex
      exact hex rfl
    have hce : (w.operations oid2).creator ≠ esc := hi.creatorNe oid2 hoid
    refine ⟨rfl, hi.ids, ?_, ?_, ?_, ?_, ?_, ?_, ?_⟩
    · intro i hge
      have hge2 : w.operationCounter ≤ i := hge
      have hne : i ≠ oid2 := by omega
      simp only [updOps, if_neg hne]
      exact hi.fresh i hge2
    · intro i hlt
      by_cases he : i = oid2
      · subst he; simpa [updOps] using hi.creatorNz i hlt
      · simp only [updOps, if_neg he]; exact hi.creatorNz i hlt
    · intro i hlt
      by_cases he : i = oid2
      · subst he; simpa [updOps] using hi.creatorNe i hlt
      · simp only [updOps, if_neg he]; exact hi.creatorNe i hlt
    · intro i hlt
      by_cases he : i = oid2
      · subst he; simpa [updOps] using hi.idField i hlt
      · simp only [updOps, if_neg he]; exact hi.idField i hlt
    · intro i hlt
      by_cases he : i = oid2
      · subst he; simpa [updOps] using hi.amtBpos i hlt
      · simp only [updOps, if_neg he]; exact hi.amtBpos i hlt
    · intro t2 s2
      rw [show tw1.allowances = w.tokens.allowances from tr_allow htr]
      exact hi.selfAllow t2 s2
    · intro t
      show tw1.balances t esc
        = activeSumF (updOps w.operations oid2
            { w.operations oid2 with
              status := OperationStatus.Cancelled }) w.operationCounter t
      rw [tr_bal_esc htr hce t, hi.conserve t]
      have hupd := activeSumF_update w.operations w.operationCounter oid2
        { w.operations oid2 with status := OperationStatus.Cancelled } t hoid
      have hz : activeAmt { w.operations oid2 with
          status := OperationStatus.Cancelled } t = 0 := by simp [activeAmt]
      have hold : activeAmt (w.operations oid2) t
          = if (w.operations oid2).tokenA = t then (w.operations oid2).amountA else 0 := by
        simp [activeAmt, hact]
      rw [hz, hold] at hupd
      by_cases ht : (w.operations oid2).tokenA = t
      · rw [if_pos ht] at hupd ⊢
        omega
      · rw [if_neg ht] at hupd ⊢
        omega

theorem inv_reachable {esc : Addr} {w : World} (h : Reachable esc w) : EscInv esc w := by
  obtain ⟨w0, hinit, hsteps⟩ := h
  induction hsteps with
  | refl => exact inv_init hinit
  | tail hab hbc ih => exact inv_step ih hbc

/-- C1: in every state reachable by any sequence of conforming token actions
and successful addToken, createOperation, completeOperation and
cancelOperation calls, the custodian's balance of each asset equals the sum
of amountA over all recorded operations whose tokenA is that asset and
whose status is Active. -/
theorem conservation_of_custody (esc : Addr) (w : World) (h : Reachable esc w)
    (t : Addr) :
    w.tokens.balances t esc = custody w t := by
  have hi := inv_reachable h
  rw [hi.conserve t]
  unfold custody getAllOperations
  rw [hi.ids, List.map_map]
  rw [list_range_sum ((fun op => activeAmt op t) ∘ fun i => w.operations i)
    w.operationCounter]
  rfl

/-- C10: in every reachable state an operation record exists (its creator is
nonzero, equivalently getOperation succeeds) exactly for the ids below
getOperationCount, and getAllOperations returns exactly getOperationCount
records in creation order, the record at position i carrying id i. -/
theorem existence_matches_counter (esc : Addr) (w : World) (h : Reachable esc w) :
    (∀ i, ((w.operations i).creator ≠ 0 ↔ i < getOperationCount w))
    ∧ (∀ i, (exceptOk (getOperation w i) = true ↔ i < getOperationCount w))
    ∧ (getAllOperations w).length = getOperationCount w
    ∧ ∀ i (hlen : i < (getAllOperations w).length),
        ((getAllOperations w).get ⟨i, hlen⟩).id = i := by
  have hi := inv_reachable h
  have hiff : ∀ i, ((w.operations i).creator ≠ 0 ↔ i < getOperationCount w) := by
    intro i
    constructor
    · intro hnz
      by_contra hno
      unfold getOperationCount at hno
      push_neg at hno
      rw [hi.fresh i hno] at hnz
      exact hnz rfl
    · exact hi.creatorNz i
  have hall : getAllOperations w
      = (List.range w.operationCounter).map (fun j => w.operations j) := by
    unfold getAllOperations
    rw [hi.ids]
  refine ⟨hiff, ?_, ?_, ?_⟩
  · intro i
    unfold getOperation
    by_cases hc : (w.operations i).creator = 0
    · rw [if_pos hc]
      simp only [exceptOk]
      constructor
      · intro hfalse; exact absurd hfalse (by simp)
      · intro hlt; exact absurd hc ((hiff i).mpr hlt)
    · rw [if_neg hc]
      simp only [exceptOk]
      exact ⟨fun _ => (hiff i).mp hc, fun _ => trivial⟩
  · rw [hall]
    simp [getOperationCount]
  · intro i hlen
    have hi2 : i < w.operationCounter := by
      rw [hall] at hlen
      simpa using hlen
    have hget : (getAllOperations w).get ⟨i, hlen⟩ = w.operations i := by
      have := hall
      rw [List.get_eq_getElem]
      simp only [this, List.getElem_map, List.getElem_range]
    rw [hget]
    exact hi.idField i hi2

/-- Extract the post-state of a successful addToken call. -/
def okWorld (w : World) (r : Except EscrowError World) : World :=
  match r with
  | Except.ok w2 => w2
  | Except.error _ => w

/-- A concrete token environment: the custodian (address 1) holds nothing
and has granted nothing; every other account holds 100 of every token. -/
def twInit : TokenWorld :=
  { balances := fun _ h => if h = 1 then 0 else 100,
    allowances := fun _ _ _ => 0 }

/-- A concrete freshly deployed world: custodian at address 1, owner 2. -/
def w0 : World :=
  { owner := 2, guardEntered := false, operationCounter := 0,
    operations := fun _ => Operation.zero,
    allowedTokens := fun _ => false,
    allowedTokensList := [], operationIds := [], tokens := twInit }

theorem w0_init : InitWorld 1 w0 :=
  ⟨rfl, rfl, fun _ => rfl, rfl, rfl, fun _ => rfl, fun _ => rfl, fun _ _ => rfl⟩

/-- w0 after the owner allowlists token 10. -/
def wA : World := okWorld w0 (addToken w0 2 10)

/-- wA after the owner allowlists token 11. -/
def wB : World := okWorld wA (addToken wA 2 11)

/-- wB after user 3 approves the custodian for 50 of token 10. -/
def wC : World := { wB with tokens := approve wB.tokens 10 3 1 50 }

/-- wC after user 3 creates operation 0 swapping 30 of token 10 for 20 of
token 11. -/
def wD : World := afterCall wC (createOperation 1 wC 3 10 11 30 20)

theorem wD_reachable : Reachable 1 wD :=
  ⟨w0, w0_init,
    Relation.ReflTransGen.tail
      (Relation.ReflTransGen.tail
        (Relation.ReflTransGen.tail
          (Relation.ReflTransGen.tail Relation.ReflTransGen.refl
            (Step.addTokenStep w0 wA 2 10 rfl))
          (Step.addTokenStep wA wB 2 11 rfl))
        (Step.approveStep wB 10 3 1 50 (by decide)))
      (Step.createStep wC wD 3 10 11 30 20 (by decide) rfl)⟩

/-- wD after user 4 approves the custodian for 20 of token 11. -/
def wE : World := { wD with tokens := approve wD.tokens 11 4 1 20 }

/-- wE after user 4 completes operation 0. -/
def wF : World := afterCall wE (completeOperation 1 wE 4 0)

/-- wD after user 3 cancels operation 0 instead. -/
def wH : World := afterCall wD (cancelOperation 1 wD 3 0)

/-- A concrete world with a Completed operation 0. -/
def opT : Operation :=
  { id := 0, creator := 3, tokenA := 10, tokenB := 11, amountA := 30,
    amountB := 20, status := OperationStatus.Completed, completer := 4 }

def wT : World :=
  { owner := 2, guardEntered := false, operationCounter := 1,
    operations := fun i => if i = 0 then opT else Operation.zero,
    allowedTokens := fun t => if t = 10 then true else if t = 11 then true else false,
    allowedTokensList := [10, 11], operationIds := [0], tokens := twInit }

/-- wT with the reentrancy guard engaged, as during an in-flight transfer. -/
def wGuard : World := { wT with guardEntered := true }

/-- Witness for C1 at the concrete reachable world wD. -/
theorem conservation_of_custody_witness :
    wD.tokens.balances 10 1 = custody wD 10 :=
  conservation_of_custody 1 wD wD_reachable 10

/-- Witness for C2: user 4 never approved token 11, so the first transfer
inside completeOperation fails and the call reverts atomically. -/
theorem completeOperation_atomic_witness :
    completeOperation 1 wD 4 0 = Except.error EscrowError.TransferError
    ∧ afterCall wD (completeOperation 1 wD 4 0) = wD
    ∧ ((afterCall wD (completeOperation 1 wD 4 0)).operations 0).status
        = OperationStatus.Active
    ∧ (afterCall wD (completeOperation 1 wD 4 0)).tokens = wD.tokens :=
  completeOperation_atomic 1 wD 4 0 rfl (by decide) (by decide) (by decide)
    (Or.inl rfl)

/-- Witness for C3 at the concrete world wT whose operation 0 is Completed. -/
theorem single_terminal_transition_witness :
    completeOperation 1 wT 4 0
      = Except.error (EscrowError.StateError RequireMsg.opNotActive)
    ∧ cancelOperation 1 wT 4 0
      = Except.error (EscrowError.StateError RequireMsg.opNotActive)
    ∧ (∀ (u u2 : World) (v : Addr), completeOperation 1 u v 0 = Except.ok (u2, ()) →
        (u2.operations 0).status = OperationStatus.Completed)
    ∧ (∀ (u u2 : World) (v : Addr), cancelOperation 1 u v 0 = Except.ok (u2, ()) →
        (u2.operations 0).status = OperationStatus.Cancelled) :=
  single_terminal_transition 1 wT wT 4 0 (by decide) (by decide) (by decide) rfl
    Relation.ReflTransGen.refl

/-- Witness for C4 at the concrete world wD, whose operation 0 was created
by user 3. -/
theorem authorization_checks_witness :
    completeOperation 1 wD (wD.operations 0).creator 0
      = Except.error (EscrowError.AuthorizationError RequireMsg.creatorCannotComplete)
    ∧ afterCall wD (completeOperation 1 wD (wD.operations 0).creator 0) = wD
    ∧ (4 ≠ (wD.operations 0).creator →
        cancelOperation 1 wD 4 0
          = Except.error (EscrowError.AuthorizationError RequireMsg.onlyCreatorCanCancel)
        ∧ afterCall wD (cancelOperation 1 wD 4 0) = wD) :=
  authorization_checks 1 wD 4 0 rfl (by decide) (by decide)

/-- Witness for C5 at the concrete guarded world. -/
theorem reentrancy_rejection_witness :
    createOperation 1 wGuard 4 10 11 30 20 = Except.error EscrowError.ReentrancyError
    ∧ completeOperation 1 wGuard 4 0 = Except.error EscrowError.ReentrancyError
    ∧ cancelOperation 1 wGuard 4 0 = Except.error EscrowError.ReentrancyError
    ∧ afterCall wGuard (createOperation 1 wGuard 4 10 11 30 20) = wGuard
    ∧ afterCall wGuard (completeOperation 1 wGuard 4 0) = wGuard
    ∧ afterCall wGuard (cancelOperation 1 wGuard 4 0) = wGuard :=
  reentrancy_rejection 1 wGuard 4 10 11 30 20 0 rfl

/-- C5 counterexample: with the guard engaged, addToken called by the owner
on a fresh token succeeds instead of failing with a ReentrancyError — the
source omits the nonReentrant modifier on addToken. -/
theorem addToken_no_guard_check :
    wGuard.guardEntered = true
    ∧ exceptOk (addToken wGuard 2 5) = true
    ∧ ∀ e, addToken wGuard 2 5 ≠ Except.error e := by
  refine ⟨rfl, rfl, ?_⟩
  intro e h
  have h2 : exceptOk (addToken wGuard 2 5) = true := rfl
  rw [h] at h2
  exact Bool.noConfusion h2

/-- Witness for C6 at the successful creation wC to wD. -/
theorem createOperation_id_allocation_witness :
    wD.operationCounter = wC.operationCounter + 1
    ∧ wD.operationIds = wC.operationIds ++ [wC.operationCounter]
    ∧ wD.operations wC.operationCounter =
        { id := wC.operationCounter, creator := 3, tokenA := 10, tokenB := 11,
          amountA := 30, amountB := 20, status := OperationStatus.Active,
          completer := 0 }
    ∧ (wC.operationIds = List.range wC.operationCounter →
        wD.operationIds = List.range wD.operationCounter)
    ∧ createOperationRet 1 wC 3 10 11 30 20 = Except.ok (wD, wC.operationCounter) :=
  createOperation_id_allocation 1 wC 3 10 11 30 20 wD rfl

/-- C6 counterexample: the source's createOperation is declared void. At the
concrete input (custodian 1, state wC, caller 3, tokens 10 and 11, amounts
30 and 20) the successful call hands the caller only the post-state wD and
the unit value — no id is returned — whereas the returning variant the
specification describes yields the new id 0 alongside the same post-state. -/
theorem createOperation_void_cex :
    createOperation 1 wC 3 10 11 30 20 = Except.ok (wD, ())
    ∧ createOperationRet 1 wC 3 10 11 30 20 = Except.ok (wD, 0) :=
  ⟨rfl, rfl⟩

/-- Witness for C7: equal tokens are rejected with a ValidationError. -/
theorem createOperation_validation_witness :
    (∃ m, createOperation 1 wC 3 10 10 30 20
        = Except.error (EscrowError.ValidationError m))
    ∧ afterCall wC (createOperation 1 wC 3 10 10 30 20) = wC :=
  createOperation_validation 1 wC 3 10 10 30 20 rfl (Or.inr (Or.inr (Or.inl rfl)))

/-- Witness for C8: user 3 creates operation 0 from wC and cancels it,
recovering the token 10 balance held before the creation. -/
theorem create_cancel_roundtrip_witness :
    wH.tokens.balances 10 3 = wC.tokens.balances 10 3 :=
  create_cancel_roundtrip 1 wC 3 10 11 30 20 wD wH rfl rfl

/-- Witness for C9 at the concrete successful completion wE to wF and the
concrete successful cancellation wD to wH. -/
theorem terminal_frame_witness :
    (wF.operations 0 = { wE.operations 0 with
        status := OperationStatus.Completed,
        completer := 4 }
      ∧ (∀ j, j ≠ 0 → wF.operations j = wE.operations j)
      ∧ wF.operationCounter = wE.operationCounter
      ∧ wF.operationIds = wE.operationIds
      ∧ wF.allowedTokens = wE.allowedTokens
      ∧ wF.allowedTokensList = wE.allowedTokensList
      ∧ wF.owner = wE.owner)
    ∧ (wH.operations 0 = { wD.operations 0 with status := OperationStatus.Cancelled }
      ∧ (∀ j, j ≠ 0 → wH.operations j = wD.operations j)
      ∧ wH.operationCounter = wD.operationCounter
      ∧ wH.operationIds = wD.operationIds
      ∧ wH.allowedTokens = wD.allowedTokens
      ∧ wH.allowedTokensList = wD.allowedTokensList
      ∧ wH.owner = wD.owner) :=
  ⟨(terminal_frame 1 wE 4 0).1 wF rfl, (terminal_frame 1 wD 3 0).2 wH rfl⟩

/-- Witness for C10 at the concrete reachable world wD. -/
theorem existence_matches_counter_witness :
    (∀ i, ((wD.operations i).creator ≠ 0 ↔ i < getOperationCount wD))
    ∧ (∀ i, (exceptOk (getOperation wD i) = true ↔ i < getOperationCount wD))
    ∧ (getAllOperations wD).length = getOperationCount wD
    ∧ ∀ i (hlen : i < (getAllOperations wD).length),
        ((getAllOperations wD).get ⟨i, hlen⟩).id = i :=
  existence_matches_counter 1 wD wD_reachable
